import Mathlib

/-!
Verification of the simulated-annealing TSP optimizer (`src/main.py`).

The code is shallowly embedded: a tour (numpy array of 2-D points) becomes a
`List Coord` with `Coord := ℝ × ℝ`; random draws (`np.random.randint`,
`np.random.random`, `np.random.shuffle`) become explicit arguments or an
explicitly threaded abstract random source; floating-point arithmetic is
modelled over the reals.
-/

/-- A 2-D data point: the structured numpy record `('x', float), ('y', float)`. -/
abbrev Coord : Type := ℝ × ℝ

/-- Embedding of `calculate_distance` (main.py lines 16-18):
`((point1[0] - point2[0])**2 + (point1[1] - point2[1])**2)**0.5`. -/
noncomputable def calculate_distance (point1 point2 : Coord) : ℝ :=
  Real.sqrt ((point1.1 - point2.1) ^ 2 + (point1.2 - point2.2) ^ 2)

/-- Embedding of `get_random_successor` (main.py lines 26-35) with the two
index draws `np.random.randint(0, n-1)` made explicit arguments.  The numpy
slice assignment `successor_state[start:end] = successor_state[start:end][::-1]`
reverses the half-open segment `[start, end)`. -/
def get_random_successor (current_state : List Coord) (index1 index2 : ℕ) :
    List Coord :=
  let start := min index1 index2
  let stop := max index1 index2
  current_state.take start ++
    ((current_state.drop start).take (stop - start)).reverse ++
    current_state.drop stop

/-- Embedding of `objective_function` (main.py lines 37-46): the loop
`for i in range(n-1): obj_value += calculate_distance(state[i], state[i+1])`
followed by `obj_value += calculate_distance(state[n-1], state[0])`. -/
noncomputable def objective_function (state : List Coord) : ℝ :=
  let n := state.length
  (List.range (n - 1)).foldl
      (fun obj_value i =>
        obj_value + calculate_distance (state.getD i (0, 0)) (state.getD (i + 1) (0, 0)))
      0
    + calculate_distance (state.getD (n - 1) (0, 0)) (state.getD 0 (0, 0))

open Classical in
/-- Embedding of `simulated_annealing` (main.py lines 48-57) with the index
draws of `get_random_successor` and the acceptance draw `np.random.random()`
made explicit arguments `index1 index2 u`. -/
noncomputable def simulated_annealing (current_state : List Coord)
    (temperature : ℝ) (index1 index2 : ℕ) (u : ℝ) : List Coord × ℝ :=
  let current_obj_value := objective_function current_state
  let next_state := get_random_successor current_state index1 index2
  let delta_cost := objective_function next_state - current_obj_value
  if delta_cost < 0 ∨ u ≤ Real.exp (-delta_cost / temperature) then
    (next_state, current_obj_value)
  else
    (current_state, current_obj_value)

/-- Embedding of the temperature computation of `animate` (main.py line 113):
`temperature = 1 / ((i % args.reheat) + 1)`. -/
noncomputable def temperature (i reheat : ℕ) : ℝ :=
  1 / ((i % reheat : ℕ) + 1)

/-- Embedding of the iteration-count validation (main.py lines 82-83):
`if args.iterations and args.iterations < 1: exit_error(...)`.
Python truthiness makes `args.iterations` falsy when it is `None` *or* `0`,
so the guard fires exactly when an iteration count `k` with `k ≠ 0 ∧ k < 1`
was supplied.  Returns `true` iff the run is rejected with an error. -/
def rejects_iteration_count (iterations : Option ℤ) : Bool :=
  match iterations with
  | none => false
  | some k => (decide (k ≠ 0)) && (decide (k < 1))

/-- Abstract model of the single sequential `np.random` source: a deterministic
state machine supplying the three kinds of draws the program makes
(`np.random.shuffle`, `np.random.randint`, `np.random.random`).  Seeding via
`np.random.seed` corresponds to fixing the initial state. -/
structure RandomSource (σ : Type) where
  shuffle : List Coord → σ → List Coord × σ
  randint : ℕ → ℕ → σ → ℕ × σ
  random : σ → ℝ × σ

/-- Embedding of `get_random_state` (main.py lines 20-24): copy the data and
shuffle it with the run's random source. -/
def get_random_state {σ : Type} (rs : RandomSource σ) (data : List Coord)
    (st : σ) : List Coord × σ :=
  rs.shuffle data st

/-- `get_random_successor` with its two draws `np.random.randint(0, n-1)`
taken from the threaded random source (main.py lines 28-29). -/
def get_random_successor_rng {σ : Type} (rs : RandomSource σ)
    (current_state : List Coord) (st : σ) : List Coord × σ :=
  let n := current_state.length
  let d1 := rs.randint 0 (n - 1) st
  let d2 := rs.randint 0 (n - 1) d1.2
  (get_random_successor current_state d1.1 d2.1, d2.2)

open Classical in
/-- `simulated_annealing` with the random draws taken from the threaded
random source.  Python's `or` short-circuits, so `np.random.random()` is
drawn only when `delta_cost < 0` fails (main.py line 54). -/
noncomputable def simulated_annealing_rng {σ : Type} (rs : RandomSource σ)
    (current_state : List Coord) (temperature : ℝ) (st : σ) :
    (List Coord × ℝ) × σ :=
  let current_obj_value := objective_function current_state
  let next := get_random_successor_rng rs current_state st
  let delta_cost := objective_function next.1 - current_obj_value
  if delta_cost < 0 then ((next.1, current_obj_value), next.2)
  else
    let u := rs.random next.2
    if u.1 ≤ Real.exp (-delta_cost / temperature) then
      ((next.1, current_obj_value), u.2)
    else
      ((current_state, current_obj_value), u.2)

/-- The animation loop body iterated (main.py lines 110-115): frame `i`
computes `temperature = 1 / ((i % reheat) + 1)`, performs one annealing step,
updates `current_state` and records `objective_value`.  Produces the list of
`(current_state, objective_value)` pairs for `k` consecutive frames starting
at index `i`. -/
noncomputable def animate_frames {σ : Type} (rs : RandomSource σ) (reheat : ℕ) :
    List Coord → σ → ℕ → ℕ → List (List Coord × ℝ)
  | _, _, _, 0 => []
  | current_state, st, i, k + 1 =>
    let r := simulated_annealing_rng rs current_state (temperature i reheat) st
    r.1 :: animate_frames rs reheat r.1.1 r.2 (i + 1) k

/-- A whole run with a finite iteration count (main.py lines 100 and 127-129):
build the initial state by shuffling the input points, then run
`animate_frames` for `iterations` frames starting at frame index 0.  The
random-source state `seed` is the only source of randomness. -/
noncomputable def run {σ : Type} (rs : RandomSource σ) (points : List Coord)
    (iterations reheat : ℕ) (seed : σ) : List (List Coord × ℝ) :=
  let init := get_random_state rs points seed
  animate_frames rs reheat init.1 init.2 0 iterations

/-- Embedding of the seed handling (main.py lines 87-88):
`if args.seed: np.random.seed(args.seed)`.  `srand` models `np.random.seed`,
mapping a seed value to a PRNG state; `entropy` is the ambient PRNG state the
process starts with.  Python truthiness makes `args.seed` falsy when it is
`None` *or* `0`, so in both cases seeding is skipped and the run keeps the
ambient state. -/
def seeded_state {σ : Type} (srand : ℤ → σ) (seed : Option ℤ) (entropy : σ) :
    σ :=
  match seed with
  | none => entropy
  | some k => if k = 0 then entropy else srand k

/-- A whole run as constructed by `__main__`: the PRNG state is the ambient
state unless a truthy seed reseeds it (main.py lines 87-88), after which the
shuffled initial tour is built and the animation loop starts. -/
noncomputable def run_seeded {σ : Type} (rs : RandomSource σ) (srand : ℤ → σ)
    (points : List Coord) (iterations reheat : ℕ) (seed : Option ℤ)
    (entropy : σ) : List (List Coord × ℝ) :=
  run rs points iterations reheat (seeded_state srand seed entropy)

/-- Concrete four-point tour on the x-axis used to instantiate theorems:
visiting order (0,0), (2,0), (1,0), (3,0), of cyclic length 2+1+2+3 = 8. -/
noncomputable def tourA : List Coord := [(0, 0), (2, 0), (1, 0), (3, 0)]

/-- The successor of `tourA` for the index draws (0, 2): the segment `[0, 2)`
is reversed, giving cyclic length 2+1+2+1 = 6. -/
noncomputable def tourA' : List Coord := [(2, 0), (0, 0), (1, 0), (3, 0)]

/-- A concrete deterministic random source over state `ℕ`, used to
instantiate theorems that are universally quantified over the source. -/
noncomputable def constSource : RandomSource ℕ where
  shuffle := fun l st => (l, st + 1)
  randint := fun lo _ st => (lo, st + 1)
  random := fun st => (1 / 2, st + 1)

/-- A concrete deterministic random source over state `ℕ` whose shuffle
output depends on the PRNG state: ambient state 0 leaves the points in
order, any other state reverses them.  Index draws always return the low
bound and the acceptance draw always returns 0. -/
noncomputable def flipSource : RandomSource ℕ where
  shuffle := fun l st => (if st = 0 then l else l.reverse, st)
  randint := fun lo _ st => (lo, st)
  random := fun st => (0, st)

/-- A concrete model of `np.random.seed` for state `ℕ`, mapping every seed
value to the state 0. -/
def srand0 : ℤ → ℕ := fun _ => 0

/-- Concrete two-point input list used for the C8 counterexample. -/
noncomputable def pairB : List Coord := [(0, 0), (1, 0)]

lemma sqrt_four : Real.sqrt 4 = 2 := by
  rw [show (4 : ℝ) = 2 ^ 2 by norm_num, Real.sqrt_sq (by norm_num)]

lemma sqrt_nine : Real.sqrt 9 = 3 := by
  rw [show (9 : ℝ) = 3 ^ 2 by norm_num, Real.sqrt_sq (by norm_num)]

lemma calculate_distance_nonneg (p q : Coord) : 0 ≤ calculate_distance p q :=
  Real.sqrt_nonneg _

lemma objective_tourA : objective_function tourA = 8 := by
  simp only [objective_function, tourA, List.length_cons, List.length_nil]
  norm_num [List.range_succ, List.getD, calculate_distance]
  rw [sqrt_four, sqrt_nine]; norm_num

lemma objective_tourA' : objective_function tourA' = 6 := by
  simp only [objective_function, tourA', List.length_cons, List.length_nil]
  norm_num [List.range_succ, List.getD, calculate_distance]
  rw [sqrt_four]; norm_num

lemma successor_tourA : get_random_successor tourA 0 2 = tourA' := rfl

lemma improving_tourA :
    objective_function (get_random_successor tourA 0 2) < objective_function tourA := by
  rw [successor_tourA, objective_tourA, objective_tourA']
  norm_num

lemma accept_of_improving (s : List Coord) (T u : ℝ) (i1 i2 : ℕ)
    (himp : objective_function (get_random_successor s i1 i2) <
      objective_function s) :
    (simulated_annealing s T i1 i2 u).1 = get_random_successor s i1 i2 := by
  simp only [simulated_annealing]
  rw [if_pos (Or.inl (sub_neg.mpr himp))]

lemma get_random_successor_perm (s : List Coord) (i1 i2 : ℕ) :
    List.Perm (get_random_successor s i1 i2) s := by
  have h2 : s.drop (max i1 i2) =
      (s.drop (min i1 i2)).drop (max i1 i2 - min i1 i2) := by
    rw [List.drop_drop]
    congr 1
    omega
  show List.Perm
    (s.take (min i1 i2) ++
      ((s.drop (min i1 i2)).take (max i1 i2 - min i1 i2)).reverse ++
      s.drop (max i1 i2)) s
  rw [List.append_assoc]
  refine List.Perm.trans
    (List.Perm.append_left _ (List.Perm.append_right _ (List.reverse_perm _))) ?_
  rw [h2, List.take_append_drop, List.take_append_drop]

lemma foldl_range_add_eq_sum (k : ℕ) (f : ℕ → ℝ) :
    (List.range k).foldl (fun a i => a + f i) 0 = ∑ i in Finset.range k, f i := by
  induction k with
  | zero => simp
  | succ k ih =>
    rw [List.range_succ, List.foldl_append, Finset.sum_range_succ, ih]
    rfl

lemma get_random_successor_length (s : List Coord) (i1 i2 : ℕ)
    (h : max i1 i2 ≤ s.length) :
    (get_random_successor s i1 i2).length = s.length := by
  show (s.take (min i1 i2) ++
      ((s.drop (min i1 i2)).take (max i1 i2 - min i1 i2)).reverse ++
      s.drop (max i1 i2)).length = s.length
  simp only [List.length_append, List.length_reverse, List.length_take,
    List.length_drop]
  omega

lemma get_random_successor_getD_high (s : List Coord) (i1 i2 j : ℕ) (d : Coord)
    (hj : max i1 i2 ≤ j) (hle : max i1 i2 ≤ s.length) :
    (get_random_successor s i1 i2).getD j d = s.getD j d := by
  show (s.take (min i1 i2) ++
      ((s.drop (min i1 i2)).take (max i1 i2 - min i1 i2)).reverse ++
      s.drop (max i1 i2)).getD j d = s.getD j d
  have hlen : (s.take (min i1 i2) ++
      ((s.drop (min i1 i2)).take (max i1 i2 - min i1 i2)).reverse).length =
      max i1 i2 := by
    simp only [List.length_append, List.length_reverse, List.length_take,
      List.length_drop]
    omega
  rw [List.getD_eq_getElem?_getD, List.getD_eq_getElem?_getD,
    List.getElem?_append_right (by rw [hlen]; exact hj), hlen,
    List.getElem?_drop]
  have hidx : max i1 i2 + (j - max i1 i2) = j := by omega
  rw [hidx]

lemma simulated_annealing_rng_flip (s : List Coord) (T : ℝ) (st : ℕ) :
    simulated_annealing_rng flipSource s T st = ((s, objective_function s), st) := by
  have hsucc : get_random_successor s 0 0 = s := by
    show s.take (min 0 0) ++
      ((s.drop (min 0 0)).take (max 0 0 - min 0 0)).reverse ++
      s.drop (max 0 0) = s
    simp
  simp only [simulated_annealing_rng, get_random_successor_rng, flipSource, hsucc]
  split
  · rfl
  · split <;> rfl

lemma run_seeded_flip_entropy0 :
    run_seeded flipSource srand0 pairB 1 100 (some 0) 0 =
      [(pairB, objective_function pairB)] := by
  have h0 : run_seeded flipSource srand0 pairB 1 100 (some 0) 0 =
      (simulated_annealing_rng flipSource pairB (temperature 0 100) 0).1 ::
        animate_frames flipSource 100
          (simulated_annealing_rng flipSource pairB (temperature 0 100) 0).1.1
          (simulated_annealing_rng flipSource pairB (temperature 0 100) 0).2 1 0 := rfl
  rw [h0, simulated_annealing_rng_flip]
  rfl

lemma run_seeded_flip_entropy1 :
    run_seeded flipSource srand0 pairB 1 100 (some 0) 1 =
      [(pairB.reverse, objective_function pairB.reverse)] := by
  have h0 : run_seeded flipSource srand0 pairB 1 100 (some 0) 1 =
      (simulated_annealing_rng flipSource pairB.reverse (temperature 0 100) 1).1 ::
        animate_frames flipSource 100
          (simulated_annealing_rng flipSource pairB.reverse (temperature 0 100) 1).1.1
          (simulated_annealing_rng flipSource pairB.reverse (temperature 0 100) 1).2 1 0 := rfl
  rw [h0, simulated_annealing_rng_flip]
  rfl

/-- C1: for every tour of length at least 2 and every temperature, if the
candidate produced by `get_random_successor` has a strictly smaller objective
value than the current tour (`delta_cost < 0`), then `simulated_annealing`
returns that candidate as the next state, regardless of the temperature and
of the acceptance draw `u`. -/
theorem C1_improving_moves_always_accepted (s : List Coord) (T u : ℝ)
    (i1 i2 : ℕ) (_hn : 2 ≤ s.length)
    (himp : objective_function (get_random_successor s i1 i2) <
      objective_function s) :
    (simulated_annealing s T i1 i2 u).1 = get_random_successor s i1 i2 :=
  accept_of_improving s T u i1 i2 himp

/-- Witness for C1 at the four-point tour `tourA`, index draws (0, 2),
temperature 1/2 and acceptance draw 1/3. -/
theorem C1_witness :
    2 ≤ tourA.length ∧
    objective_function (get_random_successor tourA 0 2) <
      objective_function tourA ∧
    (simulated_annealing tourA (1 / 2) 0 2 (1 / 3)).1 =
      get_random_successor tourA 0 2 :=
  ⟨by norm_num [tourA], improving_tourA,
    C1_improving_moves_always_accepted tourA (1 / 2) (1 / 3) 0 2
      (by norm_num [tourA]) improving_tourA⟩

/-- C2: for every input tour, the tour returned by `get_random_successor` and
the next tour returned by `simulated_annealing` have exactly the same
multiset of coordinates as the input tour: no point is added, removed, or
duplicated, only reordered. -/
theorem C2_permutation_invariance (s : List Coord) (T u : ℝ) (i1 i2 : ℕ) :
    ((get_random_successor s i1 i2 : Multiset Coord) = (s : Multiset Coord)) ∧
    (((simulated_annealing s T i1 i2 u).1 : Multiset Coord) =
      (s : Multiset Coord)) := by
  refine ⟨Multiset.coe_eq_coe.mpr (get_random_successor_perm s i1 i2), ?_⟩
  simp only [simulated_annealing]
  split
  · exact Multiset.coe_eq_coe.mpr (get_random_successor_perm s i1 i2)
  · rfl

/-- C3: for every tour of length at least 1, `objective_function` returns the
sum of the Euclidean distances between consecutive pairs (i, i+1) for i in
[0, n-2], plus the distance from the last element back to the first, and this
value is non-negative. -/
theorem C3_objective_is_cyclic_length (s : List Coord) (_hn : 1 ≤ s.length) :
    objective_function s =
      (∑ i in Finset.range (s.length - 1),
        calculate_distance (s.getD i (0, 0)) (s.getD (i + 1) (0, 0))) +
      calculate_distance (s.getD (s.length - 1) (0, 0)) (s.getD 0 (0, 0)) ∧
    0 ≤ objective_function s := by
  have heq : objective_function s =
      (∑ i in Finset.range (s.length - 1),
        calculate_distance (s.getD i (0, 0)) (s.getD (i + 1) (0, 0))) +
      calculate_distance (s.getD (s.length - 1) (0, 0)) (s.getD 0 (0, 0)) := by
    simp only [objective_function]
    rw [foldl_range_add_eq_sum]
  refine ⟨heq, ?_⟩
  rw [heq]
  have h1 : 0 ≤ ∑ i in Finset.range (s.length - 1),
      calculate_distance (s.getD i (0, 0)) (s.getD (i + 1) (0, 0)) :=
    Finset.sum_nonneg fun i _ => calculate_distance_nonneg _ _
  have h2 := calculate_distance_nonneg (s.getD (s.length - 1) (0, 0))
    (s.getD 0 (0, 0))
  linarith

/-- Witness for C3 at the four-point tour `tourA`. -/
theorem C3_witness :
    1 ≤ tourA.length ∧
    (objective_function tourA =
      (∑ i in Finset.range (tourA.length - 1),
        calculate_distance (tourA.getD i (0, 0)) (tourA.getD (i + 1) (0, 0))) +
      calculate_distance (tourA.getD (tourA.length - 1) (0, 0))
        (tourA.getD 0 (0, 0)) ∧
    0 ≤ objective_function tourA) :=
  ⟨by norm_num [tourA], C3_objective_is_cyclic_length tourA (by norm_num [tourA])⟩

/-- C4: for every iteration index i and reheat period r ≥ 1, the temperature
used by the schedule driver equals `1 / ((i % r) + 1)`, lies between `1/r`
and 1, and is periodic with period r. -/
theorem C4_temperature_schedule (i r : ℕ) (hr : 1 ≤ r) :
    temperature i r = 1 / ((i % r : ℕ) + 1) ∧
    1 / (r : ℝ) ≤ temperature i r ∧
    temperature i r ≤ 1 ∧
    temperature (i + r) r = temperature i r := by
  have hmod : i % r < r := Nat.mod_lt i (by omega)
  refine ⟨rfl, ?_, ?_, ?_⟩
  · apply one_div_le_one_div_of_le
    · positivity
    · have h2 : (i % r) + 1 ≤ r := hmod
      exact_mod_cast h2
  · rw [temperature, div_le_one (by positivity)]
    have h3 : (0 : ℝ) ≤ ((i % r : ℕ) : ℝ) := Nat.cast_nonneg _
    linarith
  · simp [temperature, Nat.add_mod_right]

/-- Witness for C4 at iteration index 5 and reheat period 3. -/
theorem C4_witness :
    1 ≤ 3 ∧
    (temperature 5 3 = 1 / ((5 % 3 : ℕ) + 1) ∧
    1 / (3 : ℝ) ≤ temperature 5 3 ∧
    temperature 5 3 ≤ 1 ∧
    temperature (5 + 3) 3 = temperature 5 3) :=
  ⟨by norm_num, C4_temperature_schedule 5 3 (by norm_num)⟩

/-- C5: for every tour of length at least 2, whenever the two drawn indices
are equal, `get_random_successor` returns a tour equal element-for-element to
the input tour (the reversed segment `[start, start)` is empty). -/
theorem C5_equal_indices_noop (s : List Coord) (i1 i2 : ℕ)
    (_hn : 2 ≤ s.length) (heq : i1 = i2) :
    get_random_successor s i1 i2 = s := by
  subst heq
  show s.take (min i1 i1) ++
      ((s.drop (min i1 i1)).take (max i1 i1 - min i1 i1)).reverse ++
      s.drop (max i1 i1) = s
  simp [List.take_append_drop]

/-- Witness for C5 at the four-point tour `tourA` with both indices equal
to 1. -/
theorem C5_witness :
    2 ≤ tourA.length ∧ (1 : ℕ) = 1 ∧ get_random_successor tourA 1 1 = tourA :=
  ⟨by norm_num [tourA], rfl, C5_equal_indices_noop tourA 1 1 (by norm_num [tourA]) rfl⟩

/-- C7: for every current tour, temperature and random draws,
`simulated_annealing` returns as its second component the objective value of
the input current tour, in both the accept and the reject branch. -/
theorem C7_returns_current_objective (s : List Coord) (T u : ℝ) (i1 i2 : ℕ) :
    (simulated_annealing s T i1 i2 u).2 = objective_function s := by
  simp only [simulated_annealing]
  split <;> rfl

/-- C6 counterexample: at the concrete tour `tourA`, temperature -1 ≤ 0,
index draws (0, 2) and acceptance draw 1/2, the annealing step does not
return the current tour unchanged: the improving candidate is accepted even
though the temperature is non-positive, so the claimed defensive rejection
does not exist in the code. -/
theorem C6_counterexample : (simulated_annealing tourA (-1) 0 2 (1 / 2)).1 ≠ tourA := by
  rw [accept_of_improving tourA (-1) (1 / 2) 0 2 improving_tourA, successor_tourA]
  intro h
  simp [tourA, tourA', Prod.ext_iff] at h

/-- C6 amended: the code has no defensive rejection for non-positive
temperature.  For every strictly negative temperature and every acceptance
draw u < 1 the step accepts and returns the candidate (when the candidate
improves, the first disjunct fires; otherwise `exp(-delta/T) ≥ 1 > u`). -/
theorem C6_amended_negative_temperature_accepts (s : List Coord) (T u : ℝ)
    (i1 i2 : ℕ) (hT : T < 0) (hu : u < 1) :
    (simulated_annealing s T i1 i2 u).1 = get_random_successor s i1 i2 := by
  simp only [simulated_annealing]
  by_cases hd : objective_function (get_random_successor s i1 i2) -
      objective_function s < 0
  · rw [if_pos (Or.inl hd)]
  · have hd' := not_lt.mp hd
    have hx : 0 ≤ -(objective_function (get_random_successor s i1 i2) -
        objective_function s) / T := by
      rw [div_nonneg_iff]
      right
      exact ⟨by linarith, le_of_lt hT⟩
    have he := Real.one_le_exp hx
    rw [if_pos (Or.inr (by linarith))]

/-- Witness for the amended C6 at `tourA`, temperature -1, equal index draws
(1, 1) and acceptance draw 1/2. -/
theorem C6_witness :
    (-1 : ℝ) < 0 ∧ (1 / 2 : ℝ) < 1 ∧
    (simulated_annealing tourA (-1) 1 1 (1 / 2)).1 =
      get_random_successor tourA 1 1 :=
  ⟨by norm_num, by norm_num,
    C6_amended_negative_temperature_accepts tourA (-1) (1 / 2) 1 1
      (by norm_num) (by norm_num)⟩

/-- C8 counterexample: the claim fails at seed value 0.  `if args.seed:`
treats 0 as falsy, so `np.random.seed` is never called and the run keeps the
ambient PRNG state: two runs constructed with seed 0, the same two input
points and the same configuration (1 iteration, reheat period 100), but
started with ambient states 0 and 1, produce different sequences. -/
theorem C8_counterexample :
    run_seeded flipSource srand0 pairB 1 100 (some 0) 0 ≠
    run_seeded flipSource srand0 pairB 1 100 (some 0) 1 := by
  rw [run_seeded_flip_entropy0, run_seeded_flip_entropy1]
  intro h
  simp [pairB, Prod.ext_iff] at h

/-- C8 amended: for every truthy seed value (k ≠ 0), two runs constructed
with the same seed, the same input points and the same configuration produce
identical sequences of (tour, objective value) pairs, regardless of the
ambient PRNG state each process started with: the guard fires, `np.random`
is reseeded deterministically and all draws follow from that one state. -/
theorem C8_amended_truthy_seed_reproducible {σ : Type} (rs : RandomSource σ)
    (srand : ℤ → σ) (points : List Coord) (iterations reheat : ℕ) (k : ℤ)
    (hk : k ≠ 0) (entropy1 entropy2 : σ) :
    run_seeded rs srand points iterations reheat (some k) entropy1 =
    run_seeded rs srand points iterations reheat (some k) entropy2 := by
  simp only [run_seeded, seeded_state]
  rw [if_neg hk, if_neg hk]

/-- Witness for the amended C8: two runs over `tourA`'s points with the
concrete source `constSource`, seed 7, 5 iterations, reheat period 100 and
distinct ambient states 0 and 5 coincide. -/
theorem C8_witness :
    (7 : ℤ) ≠ 0 ∧
    run_seeded constSource (fun z => z.natAbs) tourA 5 100 (some 7) 0 =
    run_seeded constSource (fun z => z.natAbs) tourA 5 100 (some 7) 5 :=
  ⟨by norm_num,
    C8_amended_truthy_seed_reproducible constSource (fun z => z.natAbs) tourA
      5 100 7 (by norm_num) 0 5⟩

/-- C9: evaluation of the embedded validation guard
`if args.iterations and args.iterations < 1` at the failing input 0 and at a
negative input.  An iteration count of 0 is falsy in Python, so the guard
does not fire and the run is NOT rejected, contradicting the claim; negative
counts are rejected. -/
theorem C9_zero_iterations_not_rejected :
    rejects_iteration_count (some 0) = false ∧
    rejects_iteration_count (some (-5)) = true :=
  ⟨rfl, rfl⟩

/-- C10: for every tour of length at least 2, when both drawn indices lie in
the draw range [0, n-1), the successor has the same length as the input and
its elements at the last two positions (n-2 and n-1) are unchanged. -/
theorem C10_last_two_positions_fixed (s : List Coord) (i1 i2 : ℕ)
    (hn : 2 ≤ s.length) (h1 : i1 < s.length - 1) (h2 : i2 < s.length - 1) :
    (get_random_successor s i1 i2).length = s.length ∧
    (get_random_successor s i1 i2).getD (s.length - 2) (0, 0) =
      s.getD (s.length - 2) (0, 0) ∧
    (get_random_successor s i1 i2).getD (s.length - 1) (0, 0) =
      s.getD (s.length - 1) (0, 0) := by
  refine ⟨get_random_successor_length s i1 i2 (by omega),
    get_random_successor_getD_high s i1 i2 (s.length - 2) (0, 0) (by omega) (by omega),
    get_random_successor_getD_high s i1 i2 (s.length - 1) (0, 0) (by omega) (by omega)⟩

/-- Witness for C10 at the four-point tour `tourA` with index draws (0, 2):
positions 2 and 3 keep their elements. -/
theorem C10_witness :
    2 ≤ tourA.length ∧ 0 < tourA.length - 1 ∧ 2 < tourA.length - 1 ∧
    ((get_random_successor tourA 0 2).length = tourA.length ∧
    (get_random_successor tourA 0 2).getD (tourA.length - 2) (0, 0) =
      tourA.getD (tourA.length - 2) (0, 0) ∧
    (get_random_successor tourA 0 2).getD (tourA.length - 1) (0, 0) =
      tourA.getD (tourA.length - 1) (0, 0)) :=
  ⟨by norm_num [tourA], by norm_num [tourA], by norm_num [tourA],
    C10_last_two_positions_fixed tourA 0 2 (by norm_num [tourA])
      (by norm_num [tourA]) (by norm_num [tourA])⟩
